import Mathlib

/-!
Shallow embedding of the potential-evaluation core of the mlip-2023 tutorial
repository: the shifted Lennard-Jones baseline module and the composite
export wrapper that adds a learned correction. Machine floating-point
numbers are modelled by exact rationals; the square root (used both by the
Lorentz-Berthelot combination rule and by the distance computation) is an
explicit function parameter carried by the module, since its exact value is
irrelevant to the algebraic structure of the code.
-/

set_option autoImplicit false

namespace MLIP

/-- Errors a Python evaluation of the source can raise, plus the error kinds
named by the specification (ConfigurationError, NumericError,
ComputationError) so that claims about them can be stated. The source never
constructs the spec-named kinds. -/
inductive Err where
  | keyError (species : ℤ)
  | keyErrorStr (key : String)
  | indexError
  | configurationError
  | numericError
  | computationError
  | nnRaised (msg : String)
deriving DecidableEq

/-- Classifies the errors that a failed dictionary or index access produces. -/
def Err.isLookupFailure : Err → Bool
  | .keyError _ => true
  | .keyErrorStr _ => true
  | .indexError => true
  | _ => false

/-- A 3-component vector of rational coordinates. -/
structure Vec3 where
  x : ℚ
  y : ℚ
  z : ℚ
deriving DecidableEq

def Vec3.sub (a b : Vec3) : Vec3 :=
  ⟨a.x - b.x, a.y - b.y, a.z - b.z⟩

def Vec3.add (a b : Vec3) : Vec3 :=
  ⟨a.x + b.x, a.y + b.y, a.z + b.z⟩

def Vec3.dot (a b : Vec3) : ℚ :=
  a.x * b.x + a.y * b.y + a.z * b.z

def Vec3.zsmul (n : ℤ) (a : Vec3) : Vec3 :=
  ⟨(n : ℚ) * a.x, (n : ℚ) * a.y, (n : ℚ) * a.z⟩

/-- The 3x3 simulation cell, one row per lattice vector. -/
structure Mat3 where
  row0 : Vec3
  row1 : Vec3
  row2 : Vec3
deriving DecidableEq

/-- The row-vector times matrix product `S @ cell` from the source: the
cell shift as integer multiples of the lattice vectors. -/
def shiftTimesCell (S : ℤ × ℤ × ℤ) (cell : Mat3) : Vec3 :=
  Vec3.add (Vec3.add (Vec3.zsmul S.1 cell.row0) (Vec3.zsmul S.2.1 cell.row1))
    (Vec3.zsmul S.2.2 cell.row2)

/-- One entry of the neighbor list supplied by the hosting engine:
first_atom, second_atom, cell_shift_a/b/c. -/
structure NeighborPair where
  first : ℕ
  second : ℕ
  shift : ℤ × ℤ × ℤ
deriving DecidableEq

/-- One simulation frame as consumed by `forward`: positions, species codes,
cell, and the neighbor list the engine computed for the requested options. -/
structure System where
  positions : List Vec3
  species : List ℤ
  cell : Mat3
  neighbors : List NeighborPair
deriving DecidableEq

/-- The per-call run options: requested output names and the optional atom
selection. -/
structure RunOptions where
  outputs : List String
  selected_atoms : Option (List ℕ)
deriving DecidableEq

/-- The returned output mapping, output name to scalar energy value
(each TensorBlock of the source carries a single scalar here). -/
abbrev OutputRecord := List (String × ℚ)

/-- The combined parameters stored for a species pair:
`[sigma, epsilon, energy_at_cutoff]` in the source. -/
structure LJPairParams where
  sigma : ℚ
  epsilon : ℚ
  shift : ℚ
deriving DecidableEq

/-- Lorentz-Berthelot combination and cutoff shift, as computed in the inner
loop of `LennardJones.__init__`. -/
def combineLB (sqrt : ℚ → ℚ) (cutoff : ℚ) (p_i p_j : ℚ × ℚ) : LJPairParams :=
  let sigma := (p_i.1 + p_j.1) / 2
  let epsilon := sqrt (p_i.2 * p_j.2)
  let energy_at_cutoff := 4 * epsilon * ((sigma / cutoff) ^ 12 - (sigma / cutoff) ^ 6)
  { sigma := sigma, epsilon := epsilon, shift := energy_at_cutoff }

/-- One row of the nested parameter dictionary: the inner loop over `s_j`. -/
def paramRow (sqrt : ℚ → ℚ) (cutoff : ℚ) (parameters : List (ℤ × (ℚ × ℚ)))
    (p_i : ℚ × ℚ) : List (ℤ × LJPairParams) :=
  parameters.map fun p_j => (p_j.1, combineLB sqrt cutoff p_i p_j.2)

/-- The `LennardJones` torch module: cutoff and the nested species-pair
parameter table built at construction. `sqrtFn` models the ambient real
square root used by `math.sqrt` and `Tensor.sqrt`. -/
structure LennardJones where
  sqrtFn : ℚ → ℚ
  cutoff : ℚ
  lj_params : List (ℤ × List (ℤ × LJPairParams))

/-- `LennardJones.__init__`: build the nested parameter dictionary from the
species to (sigma, epsilon) mapping, modelled as an association list. -/
def mkLennardJones (sqrt : ℚ → ℚ) (cutoff : ℚ)
    (parameters : List (ℤ × (ℚ × ℚ))) : LennardJones :=
  { sqrtFn := sqrt
    cutoff := cutoff
    lj_params := parameters.map fun p_i => (p_i.1, paramRow sqrt cutoff parameters p_i.2) }

/-- The two-stage dictionary access `self._lj_params[s_i][s_j]`. -/
def LennardJones.getPair (m : LennardJones) (s_i s_j : ℤ) : Option LJPairParams :=
  (m.lj_params.lookup s_i).bind fun row => row.lookup s_j

/-- The body of the pair loop in `LennardJones.forward`, in source evaluation
order: species index and dictionary accesses (which can fail as in Python),
then periodic displacement, squared distance, square root, and the shifted
pair energy added onto the accumulator. -/
def LennardJones.pairStep (m : LennardJones) (system : System) (total : ℚ)
    (pair : NeighborPair) : Except Err ℚ :=
  match system.species.get? pair.first with
  | none => .error .indexError
  | some s_i =>
    match m.lj_params.lookup s_i with
    | none => .error (.keyError s_i)
    | some row =>
      match system.species.get? pair.second with
      | none => .error .indexError
      | some s_j =>
        match row.lookup s_j with
        | none => .error (.keyError s_j)
        | some params =>
          match system.positions.get? pair.second, system.positions.get? pair.first with
          | some pos_j, some pos_i =>
            let distance := Vec3.add (Vec3.sub pos_j pos_i) (shiftTimesCell pair.shift system.cell)
            let r2 := Vec3.dot distance distance
            let r := m.sqrtFn r2
            let e_ij := 4 * params.epsilon * ((params.sigma / r) ^ 12 - (params.sigma / r) ^ 6)
            .ok (total + (e_ij - params.shift))
          | _, _ => .error .indexError

/-- The `for i, j, S in zip(...)` loop of `LennardJones.forward`,
accumulating `total_energy` and stopping at the first raised error. -/
def LennardJones.pairLoop (m : LennardJones) (system : System) :
    ℚ → List NeighborPair → Except Err ℚ
  | total, [] => .ok total
  | total, pair :: rest =>
    match m.pairStep system total pair with
    | .error e => .error e
    | .ok t => m.pairLoop system t rest

/-- The total Lennard-Jones energy of a frame: the pair loop started at zero
over the whole neighbor list. Note it takes no run options: it is defined
over all atoms of the system. -/
def LennardJones.totalEnergy (m : LennardJones) (system : System) : Except Err ℚ :=
  m.pairLoop system 0 system.neighbors

/-- `LennardJones.forward`: return an empty mapping when "energy" was not
requested, otherwise run the pair loop and wrap the total in an output
record. The source reads and defaults `run_options.selected_atoms` but never
uses it afterwards; the dead binding is kept. -/
def LennardJones.forward (m : LennardJones) (system : System)
    (run_options : RunOptions) : Except Err OutputRecord :=
  if "energy" ∉ run_options.outputs then .ok []
  else
    let _selected_atoms :=
      run_options.selected_atoms.getD (List.range system.positions.length)
    match m.totalEnergy system with
    | .error e => .error e
    | .ok total_energy => .ok [("energy", total_energy)]

/-- State-passing view of `LennardJones.forward`: the source body never
assigns to any attribute of `self`, so the module state after the call is
the module state before it. -/
def LennardJones.forwardS (m : LennardJones) (system : System)
    (run_options : RunOptions) : Except Err OutputRecord × LennardJones :=
  (m.forward system run_options, m)

/-- The `ExportWrapper` torch module of the LJ notebook: the Lennard-Jones
baseline plus the learned model, which is an external collaborator kept
opaque (a function of the system and the optional selected samples). -/
structure ExportWrapper where
  lj : LennardJones
  nn_model : System → Option (List ℕ) → Except Err ℚ

/-- `ExportWrapper.forward`: gate on the requested outputs, run the LJ
module, read its "energy" entry, build `selected_samples` from
`selected_atoms`, run the learned model, and return the summed energy. Any
error from a sub-step propagates unchanged, as an uncaught Python exception
would. -/
def ExportWrapper.forward (w : ExportWrapper) (system : System)
    (run_options : RunOptions) : Except Err OutputRecord :=
  if "energy" ∉ run_options.outputs then .ok []
  else
    match w.lj.forward system run_options with
    | .error e => .error e
    | .ok outputs =>
      match outputs.lookup "energy" with
      | none => .error (.keyErrorStr "energy")
      | some lj_energy =>
        let selected_samples : Option (List ℕ) :=
          match run_options.selected_atoms with
          | none => none
          | some selected_atoms => some selected_atoms
        match w.nn_model system selected_samples with
        | .error e => .error e
        | .ok nn_energy => .ok [("energy", lj_energy + nn_energy)]

/-- State-passing view of `ExportWrapper.forward`: the source body never
assigns to any attribute of `self`, so the module state after the call is
the module state before it. -/
def ExportWrapper.forwardS (w : ExportWrapper) (system : System)
    (run_options : RunOptions) : Except Err OutputRecord × ExportWrapper :=
  (w.forward system run_options, w)

/-- Follows the wording of the specification, section 4.2: for one neighbor
pair, reconstruct the displacement as position[j] - position[i] +
cell_shift times cell, take r as the Euclidean norm of the displacement, and
produce `4*epsilon_ij*((sigma_ij/r)^12 - (sigma_ij/r)^6) - shift_ij` where
`sigma_ij = (sigma_i + sigma_j)/2`, `epsilon_ij = sqrt(epsilon_i*epsilon_j)`
and `shift_ij = 4*epsilon_ij*((sigma_ij/r_c)^12 - (sigma_ij/r_c)^6)`. -/
def specPairTerm (sqrt : ℚ → ℚ) (parameters : List (ℤ × (ℚ × ℚ))) (r_c : ℚ)
    (system : System) (pair : NeighborPair) : Option ℚ :=
  match system.species.get? pair.first with
  | none => none
  | some s_i =>
    match system.species.get? pair.second with
    | none => none
    | some s_j =>
      match parameters.lookup s_i with
      | none => none
      | some p_i =>
        match parameters.lookup s_j with
        | none => none
        | some p_j =>
          match system.positions.get? pair.first, system.positions.get? pair.second with
          | some pos_i, some pos_j =>
            let sigma := (p_i.1 + p_j.1) / 2
            let epsilon := sqrt (p_i.2 * p_j.2)
            let shift := 4 * epsilon * ((sigma / r_c) ^ 12 - (sigma / r_c) ^ 6)
            let displacement :=
              Vec3.add (Vec3.sub pos_j pos_i) (shiftTimesCell pair.shift system.cell)
            let r := sqrt (Vec3.dot displacement displacement)
            some (4 * epsilon * ((sigma / r) ^ 12 - (sigma / r) ^ 6) - shift)
          | _, _ => none

/-! ## Characterization lemmas for the parameter table -/

theorem lookup_map_value {α β : Type} (k : ℤ) (l : List (ℤ × α)) (g : α → β) :
    List.lookup k (l.map fun p => (p.1, g p.2)) = (List.lookup k l).map g := by
  induction l with
  | nil => rfl
  | cons p tl ih =>
    by_cases h : k = p.1
    · simp [List.lookup, h]
    · have hb : (k == p.1) = false := beq_eq_false_iff_ne.mpr h
      simp [List.lookup, hb, ih]

theorem getPair_mk (sqrt : ℚ → ℚ) (cutoff : ℚ) (ps : List (ℤ × (ℚ × ℚ))) (s_i s_j : ℤ) :
    (mkLennardJones sqrt cutoff ps).getPair s_i s_j =
      (List.lookup s_i ps).bind fun p_i =>
        (List.lookup s_j ps).map fun p_j => combineLB sqrt cutoff p_i p_j := by
  show (List.lookup s_i (ps.map fun p => (p.1, paramRow sqrt cutoff ps p.2))).bind
      (fun row => row.lookup s_j) =
    (List.lookup s_i ps).bind fun p_i =>
      (List.lookup s_j ps).map fun p_j => combineLB sqrt cutoff p_i p_j
  rw [lookup_map_value s_i ps (paramRow sqrt cutoff ps)]
  cases List.lookup s_i ps with
  | none => rfl
  | some p_i =>
    show List.lookup s_j (ps.map fun p => (p.1, combineLB sqrt cutoff p_i p.2)) =
      Option.map (fun p_j => combineLB sqrt cutoff p_i p_j) (List.lookup s_j ps)
    rw [lookup_map_value s_j ps (combineLB sqrt cutoff p_i)]

theorem combineLB_comm (sqrt : ℚ → ℚ) (cutoff : ℚ) (a b : ℚ × ℚ) :
    combineLB sqrt cutoff a b = combineLB sqrt cutoff b a := by
  simp only [combineLB]
  rw [add_comm a.1 b.1, mul_comm a.2 b.2]

/-! ## Relating the pair loop of forward to the per-pair term of the spec -/

theorem pairStep_eq_specPairTerm (sqrt : ℚ → ℚ) (cutoff : ℚ) (ps : List (ℤ × (ℚ × ℚ)))
    (system : System) (pair : NeighborPair) (total t : ℚ)
    (h : specPairTerm sqrt ps cutoff system pair = some t) :
    (mkLennardJones sqrt cutoff ps).pairStep system total pair = .ok (total + t) := by
  unfold specPairTerm at h
  cases hsi : system.species.get? pair.first with
  | none => simp only [hsi] at h; exact Option.noConfusion h
  | some s_i =>
  cases hsj : system.species.get? pair.second with
  | none => simp only [hsi, hsj] at h; exact Option.noConfusion h
  | some s_j =>
  cases hpi : List.lookup s_i ps with
  | none => simp only [hsi, hsj, hpi] at h; exact Option.noConfusion h
  | some p_i =>
  cases hpj : List.lookup s_j ps with
  | none => simp only [hsi, hsj, hpi, hpj] at h; exact Option.noConfusion h
  | some p_j =>
  cases hqi : system.positions.get? pair.first with
  | none => simp only [hsi, hsj, hpi, hpj, hqi] at h; exact Option.noConfusion h
  | some pos_i =>
  cases hqj : system.positions.get? pair.second with
  | none => simp only [hsi, hsj, hpi, hpj, hqi, hqj] at h; exact Option.noConfusion h
  | some pos_j =>
  simp only [hsi, hsj, hpi, hpj, hqi, hqj, Option.some.injEq] at h
  have hrow : List.lookup s_i (ps.map fun p => (p.1, paramRow sqrt cutoff ps p.2)) =
      some (paramRow sqrt cutoff ps p_i) := by
    rw [lookup_map_value s_i ps (paramRow sqrt cutoff ps), hpi]; rfl
  have hcell : List.lookup s_j (paramRow sqrt cutoff ps p_i) =
      some (combineLB sqrt cutoff p_i p_j) := by
    show List.lookup s_j (ps.map fun p => (p.1, combineLB sqrt cutoff p_i p.2)) = _
    rw [lookup_map_value s_j ps (combineLB sqrt cutoff p_i), hpj]; rfl
  simp only [LennardJones.pairStep, mkLennardJones, hsi, hsj, hqi, hqj, hrow, hcell,
    combineLB]
  rw [← h]

theorem pairLoop_specSum (sqrt : ℚ → ℚ) (cutoff : ℚ) (ps : List (ℤ × (ℚ × ℚ)))
    (system : System) (pairs : List NeighborPair) (total : ℚ)
    (h : ∀ pair ∈ pairs, (specPairTerm sqrt ps cutoff system pair).isSome) :
    (mkLennardJones sqrt cutoff ps).pairLoop system total pairs =
      .ok (total +
        (pairs.map fun pair => (specPairTerm sqrt ps cutoff system pair).getD 0).sum) := by
  induction pairs generalizing total with
  | nil => simp [LennardJones.pairLoop]
  | cons pair rest ih =>
    obtain ⟨t, ht⟩ := Option.isSome_iff_exists.mp (h pair (by simp))
    rw [LennardJones.pairLoop,
      pairStep_eq_specPairTerm sqrt cutoff ps system pair total t ht]
    show (mkLennardJones sqrt cutoff ps).pairLoop system (total + t) rest = _
    rw [ih (total + t) (fun p hp => h p (List.mem_cons_of_mem _ hp))]
    simp [ht, add_assoc]

/-! ## Unfolding lemma for forward -/

theorem forward_def (m : LennardJones) (system : System) (ro : RunOptions) :
    m.forward system ro =
      if "energy" ∉ ro.outputs then .ok []
      else
        match m.totalEnergy system with
        | .error e => .error e
        | .ok total_energy => .ok [("energy", total_energy)] := rfl

/-! ## Classification of the errors the pair loop can produce -/

theorem pairStep_error_isLookupFailure (m : LennardJones) (system : System) (total : ℚ)
    (pair : NeighborPair) (e : Err)
    (h : m.pairStep system total pair = .error e) : e.isLookupFailure = true := by
  unfold LennardJones.pairStep at h
  repeat' split at h
  all_goals try (injection h with h; subst h; rfl)
  all_goals exact absurd h (by simp)

theorem pairLoop_error_isLookupFailure (m : LennardJones) (system : System)
    (pairs : List NeighborPair) (total : ℚ) (e : Err)
    (h : m.pairLoop system total pairs = .error e) : e.isLookupFailure = true := by
  induction pairs generalizing total with
  | nil => exact absurd h (by simp [LennardJones.pairLoop])
  | cons pair rest ih =>
    rw [LennardJones.pairLoop] at h
    cases hs : m.pairStep system total pair with
    | error e2 =>
      rw [hs] at h
      simp only [Except.error.injEq] at h
      subst h
      exact pairStep_error_isLookupFailure m system total pair _ hs
    | ok t =>
      rw [hs] at h
      exact ih t h

theorem forward_error_isLookupFailure (m : LennardJones) (system : System)
    (ro : RunOptions) (e : Err)
    (h : m.forward system ro = .error e) : e.isLookupFailure = true := by
  rw [forward_def] at h
  split at h
  · exact absurd h (by simp)
  · cases ht : m.totalEnergy system with
    | error e2 =>
      rw [ht] at h
      simp only [Except.error.injEq] at h
      subst h
      exact pairLoop_error_isLookupFailure m system system.neighbors 0 _ ht
    | ok total =>
      rw [ht] at h
      exact absurd h (by simp)

/-! ## Concrete fixtures used by witnesses and counterexamples -/

/-- A stand-in square root used only to evaluate witnesses; the claims hold
for every square-root function. -/
def sqW : ℚ → ℚ := fun x => x

def zeroCell : Mat3 := ⟨⟨0, 0, 0⟩, ⟨0, 0, 0⟩, ⟨0, 0, 0⟩⟩

/-- One species (code 1) with sigma 2 and epsilon 1. -/
def psW : List (ℤ × (ℚ × ℚ)) := [(1, (2, 1))]

def ljW : LennardJones := mkLennardJones sqW 2 psW

/-- Two atoms of species 1 at distance 1, one neighbor pair, open cell. -/
def sysW : System :=
  { positions := [⟨0, 0, 0⟩, ⟨1, 0, 0⟩], species := [1, 1], cell := zeroCell,
    neighbors := [⟨0, 1, (0, 0, 0)⟩] }

def roE : RunOptions := ⟨["energy"], none⟩

def roSel : RunOptions := ⟨["energy"], some [0]⟩

def roNoE : RunOptions := ⟨["forces"], none⟩

/-- Cutoff 4, so the stored shift for the (1, 1) pair is nonzero. -/
def lj6 : LennardJones := mkLennardJones sqW 4 psW

/-- Two atoms of species 1 at the same position: the neighbor pair has
separation zero. -/
def sys6 : System :=
  { positions := [⟨0, 0, 0⟩, ⟨0, 0, 0⟩], species := [1, 1], cell := zeroCell,
    neighbors := [⟨0, 1, (0, 0, 0)⟩] }

/-- A module whose parameter table is empty: every species is unsupported. -/
def lj7 : LennardJones := mkLennardJones sqW 2 []

/-- A single atom of species 99 with no neighbor pairs. -/
def sys7 : System :=
  { positions := [⟨0, 0, 0⟩], species := [99], cell := zeroCell, neighbors := [] }

/-- Two atoms of species 1 with one neighbor pair, used with `lj7`. -/
def sys7b : System :=
  { positions := [⟨0, 0, 0⟩, ⟨1, 0, 0⟩], species := [1, 1], cell := zeroCell,
    neighbors := [⟨0, 1, (0, 0, 0)⟩] }

/-- Composite whose learned collaborator returns the constant 5. -/
def wW : ExportWrapper := ⟨ljW, fun _ _ => .ok 5⟩

/-- Composite whose learned collaborator raises. -/
def w8 : ExportWrapper := ⟨ljW, fun _ _ => .error (.nnRaised "boom")⟩

/-! ## Evaluation helpers for the fixtures -/

theorem ljW_totalEnergy : ljW.totalEnergy sysW = .ok 16128 := by
  norm_num [ljW, sysW, LennardJones.totalEnergy, LennardJones.pairLoop, LennardJones.pairStep,
    mkLennardJones, paramRow, combineLB, psW, sqW, zeroCell, Vec3.sub, Vec3.add, Vec3.dot,
    Vec3.zsmul, shiftTimesCell, List.lookup, List.get?]

theorem ljW_forward_value (ro : RunOptions) (h : "energy" ∈ ro.outputs) :
    ljW.forward sysW ro = .ok [("energy", 16128)] := by
  rw [forward_def, if_neg (not_not_intro h), ljW_totalEnergy]

/-! ## Claims -/

/-- C1: for every species pair present in the parameter table built at
construction, the raw Lennard-Jones term evaluated at separation equal to
the cutoff is exactly cancelled by the stored shift term: the pairwise
energy contribution at r = r_c is zero. -/
theorem pair_energy_zero_at_cutoff (sqrt : ℚ → ℚ) (cutoff : ℚ)
    (ps : List (ℤ × (ℚ × ℚ))) (s_i s_j : ℤ) (p : LJPairParams)
    (h : (mkLennardJones sqrt cutoff ps).getPair s_i s_j = some p) :
    4 * p.epsilon * ((p.sigma / cutoff) ^ 12 - (p.sigma / cutoff) ^ 6) - p.shift = 0 := by
  rw [getPair_mk] at h
  cases hpi : List.lookup s_i ps with
  | none => rw [hpi] at h; exact Option.noConfusion h
  | some p_i =>
  rw [hpi] at h
  cases hpj : List.lookup s_j ps with
  | none => rw [hpj] at h; exact Option.noConfusion h
  | some p_j =>
  rw [hpj] at h
  simp only [Option.some_bind, Option.map_some', Option.some.injEq] at h
  subst h
  simp only [combineLB]
  exact sub_self _

theorem pair_energy_zero_at_cutoff_witness :
    ljW.getPair 1 1 = some ⟨2, 1, 0⟩ ∧
    4 * (1 : ℚ) * ((2 / 2) ^ 12 - (2 / 2) ^ 6) - 0 = 0 := by
  have h : ljW.getPair 1 1 = some ⟨2, 1, 0⟩ := by
    norm_num [ljW, LennardJones.getPair, mkLennardJones, paramRow, combineLB, psW, sqW,
      List.lookup]
  exact ⟨h, pair_energy_zero_at_cutoff sqW 2 psW 1 1 ⟨2, 1, 0⟩ h⟩

/-- C3: when energy is requested and every neighbor pair admits a
specification-side term (species present in the table and indices in
range), the forward pass returns exactly the sum, over the neighbor list,
of the per-pair term prescribed by the specification: displacement
position[j] - position[i] + cell_shift * cell, r the Euclidean norm, the
Lorentz-Berthelot combined sigma and epsilon, and the shifted
4*epsilon*((sigma/r)^12 - (sigma/r)^6) - shift contribution. -/
theorem lj_forward_matches_spec (sqrt : ℚ → ℚ) (cutoff : ℚ)
    (ps : List (ℤ × (ℚ × ℚ))) (system : System) (ro : RunOptions)
    (h1 : "energy" ∈ ro.outputs)
    (h2 : ∀ pair ∈ system.neighbors, (specPairTerm sqrt ps cutoff system pair).isSome) :
    (mkLennardJones sqrt cutoff ps).forward system ro =
      .ok [("energy",
        (system.neighbors.map fun pair =>
          (specPairTerm sqrt ps cutoff system pair).getD 0).sum)] := by
  rw [forward_def, if_neg (not_not_intro h1)]
  unfold LennardJones.totalEnergy
  rw [pairLoop_specSum sqrt cutoff ps system system.neighbors 0 h2]
  simp only [zero_add]

theorem lj_forward_matches_spec_witness :
    ljW.forward sysW roE =
      .ok [("energy",
        (sysW.neighbors.map fun pair =>
          (specPairTerm sqW psW 2 sysW pair).getD 0).sum)] :=
  lj_forward_matches_spec sqW 2 psW sysW roE (by decide) (by decide)

/-- C4: the species-pair parameter table is symmetric: swapping the two
species labels leaves the combined sigma, epsilon and stored shift
unchanged, for every pair of species labels. -/
theorem species_pair_table_symmetric (sqrt : ℚ → ℚ) (cutoff : ℚ)
    (ps : List (ℤ × (ℚ × ℚ))) (s_i s_j : ℤ) :
    (mkLennardJones sqrt cutoff ps).getPair s_i s_j =
      (mkLennardJones sqrt cutoff ps).getPair s_j s_i := by
  rw [getPair_mk, getPair_mk]
  cases List.lookup s_i ps <;> cases List.lookup s_j ps <;>
    simp [combineLB_comm sqrt cutoff]

/-- C2: when energy is requested, the composite energy is exactly the
Lennard-Jones total over all atoms of the system plus the learned-model
value at the given atom selection (None meaning all atoms); and the
baseline term does not depend on selected_atoms at all. -/
theorem composite_energy_decomposition (w : ExportWrapper) (system : System)
    (ro : RunOptions) (e_lj e_nn : ℚ)
    (h1 : "energy" ∈ ro.outputs)
    (h2 : w.lj.totalEnergy system = .ok e_lj)
    (h3 : w.nn_model system ro.selected_atoms = .ok e_nn) :
    w.forward system ro = .ok [("energy", e_lj + e_nn)] ∧
    ∀ sel, w.lj.forward system { ro with selected_atoms := sel } =
      w.lj.forward system ro := by
  constructor
  · unfold ExportWrapper.forward
    rw [if_neg (not_not_intro h1)]
    have hlj : w.lj.forward system ro = .ok [("energy", e_lj)] := by
      rw [forward_def, if_neg (not_not_intro h1), h2]
    have hlook : List.lookup "energy" ([("energy", e_lj)] : OutputRecord) = some e_lj := by
      simp [List.lookup]
    cases hsel : ro.selected_atoms with
    | none =>
      rw [hsel] at h3
      simp only [hlj, hlook, hsel, h3]
    | some sel_atoms =>
      rw [hsel] at h3
      simp only [hlj, hlook, hsel, h3]
  · intro sel
    rfl

theorem composite_energy_decomposition_witness :
    wW.forward sysW roSel = .ok [("energy", 16128 + 5)] := by
  have h2 : wW.lj.totalEnergy sysW = .ok 16128 := ljW_totalEnergy
  have h3 : wW.nn_model sysW roSel.selected_atoms = .ok 5 := rfl
  exact (composite_energy_decomposition wW sysW roSel 16128 5 (by decide) h2 h3).1

/-- C5: when energy is not among the requested outputs, both the
Lennard-Jones module and the composite return an empty output mapping, and
the composite result is the same for every learned-model collaborator (it
is never invoked). -/
theorem empty_output_gating (m : LennardJones) (w : ExportWrapper) (system : System)
    (ro : RunOptions) (h : "energy" ∉ ro.outputs) :
    m.forward system ro = .ok [] ∧ w.forward system ro = .ok [] ∧
    ∀ nn, ExportWrapper.forward ⟨w.lj, nn⟩ system ro = .ok [] := by
  refine ⟨?_, ?_, fun nn => ?_⟩
  · rw [forward_def, if_pos h]
  · unfold ExportWrapper.forward
    rw [if_pos h]
  · unfold ExportWrapper.forward
    rw [if_pos h]

theorem empty_output_gating_witness :
    ljW.forward sysW roNoE = .ok [] ∧ wW.forward sysW roNoE = .ok [] := by
  have h := empty_output_gating ljW wW sysW roNoE (by decide)
  exact ⟨h.1, h.2.1⟩

/-- C9: the composite evaluation is a pure function of its inputs: the
module state after a call equals the state before it, and a second call on
the same inputs produces the identical result pair. -/
theorem composite_evaluation_stateless (w : ExportWrapper) (system : System)
    (ro : RunOptions) :
    (w.forwardS system ro).2 = w ∧
    (w.forwardS system ro).2.forwardS system ro = w.forwardS system ro :=
  ⟨rfl, rfl⟩

/-- C10: the Lennard-Jones forward output does not depend on
selected_atoms: two run options that request energy and share the same
outputs list produce the same result. -/
theorem lj_ignores_selected_atoms (m : LennardJones) (system : System)
    (ro1 ro2 : RunOptions) (h1 : "energy" ∈ ro1.outputs)
    (h2 : ro1.outputs = ro2.outputs) :
    m.forward system ro1 = m.forward system ro2 := by
  rw [forward_def, forward_def, h2]

theorem lj_ignores_selected_atoms_witness :
    ljW.forward sysW roE = ljW.forward sysW roSel :=
  lj_ignores_selected_atoms ljW sysW roE roSel (by decide) rfl

/-- C6 counterexample: a neighbor pair of two atoms at the same position
(zero separation, zero cell shift) does not make the evaluation fail: the
forward pass returns an ordinary energy record. -/
theorem zero_separation_counterexample :
    sys6.positions.get? 0 = sys6.positions.get? 1 ∧
    lj6.forward sys6 roE = .ok [("energy", 63 / 1024)] := by
  refine ⟨rfl, ?_⟩
  rw [forward_def, if_neg (by decide)]
  norm_num [lj6, sys6, LennardJones.totalEnergy, LennardJones.pairLoop, LennardJones.pairStep,
    mkLennardJones, paramRow, combineLB, psW, sqW, zeroCell, Vec3.sub, Vec3.add, Vec3.dot,
    Vec3.zsmul, shiftTimesCell, List.lookup, List.get?, div_zero]

/-- C6 amended: the evaluation contains no zero-separation check and never
produces a NumericError: any error it returns is a dictionary or index
lookup failure. -/
theorem lj_failure_never_numeric (m : LennardJones) (system : System)
    (ro : RunOptions) (e : Err)
    (h : m.forward system ro = .error e) : e.isLookupFailure = true :=
  forward_error_isLookupFailure m system ro e h

theorem lj_failure_never_numeric_witness :
    (Err.keyError 1).isLookupFailure = true :=
  lj_failure_never_numeric lj7 sys7b roE (Err.keyError 1) rfl

/-- C7 counterexample: a system containing an atom of an unsupported
species (code 99, absent from the parameter table) whose atom occurs in no
neighbor pair evaluates without any error: no ConfigurationError is
raised. -/
theorem unsupported_species_counterexample :
    sys7.species = [99] ∧ lj7.getPair 99 99 = none ∧
    lj7.forward sys7 roE = .ok [("energy", 0)] :=
  ⟨rfl, rfl, rfl⟩

/-- C7 amended: an unsupported species is detected only lazily, when the
pair loop reaches a neighbor pair whose first atom has that species, and it
then fails with a KeyError carrying the species code, not with a
ConfigurationError. -/
theorem unsupported_species_lazy_key_error (m : LennardJones) (system : System)
    (ro : RunOptions) (pair : NeighborPair) (rest : List NeighborPair) (s : ℤ)
    (hn : system.neighbors = pair :: rest)
    (hs : system.species.get? pair.first = some s)
    (hl : m.lj_params.lookup s = none)
    (he : "energy" ∈ ro.outputs) :
    m.forward system ro = .error (Err.keyError s) := by
  have hstep : m.pairStep system 0 pair = .error (Err.keyError s) := by
    unfold LennardJones.pairStep
    simp only [hs, hl]
  have htot : m.totalEnergy system = .error (Err.keyError s) := by
    unfold LennardJones.totalEnergy
    rw [hn]
    simp only [LennardJones.pairLoop, hstep]
  rw [forward_def, if_neg (not_not_intro he), htot]

theorem unsupported_species_lazy_key_error_witness :
    lj7.forward sys7b roE = .error (Err.keyError 1) :=
  unsupported_species_lazy_key_error lj7 sys7b roE ⟨0, 1, (0, 0, 0)⟩ [] 1 rfl rfl rfl
    (by decide)

/-- C8 counterexample: when the learned-model collaborator raises, the
composite fails with the propagated collaborator error, not with a
ComputationError. -/
theorem collaborator_error_counterexample :
    w8.forward sysW roE = .error (Err.nnRaised "boom") := by
  unfold ExportWrapper.forward
  rw [if_neg (by decide)]
  have hlj : w8.lj.forward sysW roE = .ok [("energy", 16128)] :=
    ljW_forward_value roE (by decide)
  rw [hlj]
  simp [List.lookup, roE, w8]

/-- C8 amended: if the Lennard-Jones stage succeeds and the learned-model
collaborator fails, the composite forward returns exactly the error the
collaborator produced, unchanged, and returns no partial output record. -/
theorem collaborator_error_propagates (w : ExportWrapper) (system : System)
    (ro : RunOptions) (out : OutputRecord) (e_lj : ℚ) (err : Err)
    (h1 : "energy" ∈ ro.outputs)
    (h2 : w.lj.forward system ro = .ok out)
    (h3 : List.lookup "energy" out = some e_lj)
    (h4 : w.nn_model system ro.selected_atoms = .error err) :
    w.forward system ro = .error err := by
  unfold ExportWrapper.forward
  rw [if_neg (not_not_intro h1)]
  cases hsel : ro.selected_atoms with
  | none =>
    rw [hsel] at h4
    simp only [h2, h3, hsel, h4]
  | some sel_atoms =>
    rw [hsel] at h4
    simp only [h2, h3, hsel, h4]

theorem collaborator_error_propagates_witness :
    w8.forward sysW roSel = .error (Err.nnRaised "boom") := by
  have h2 : w8.lj.forward sysW roSel = .ok [("energy", 16128)] :=
    ljW_forward_value roSel (by decide)
  have h3 : List.lookup "energy" ([("energy", (16128 : ℚ))] : OutputRecord) =
      some 16128 := by
    simp [List.lookup]
  have h4 : w8.nn_model sysW roSel.selected_atoms = .error (Err.nnRaised "boom") := rfl
  exact collaborator_error_propagates w8 sysW roSel [("energy", 16128)] 16128
    (Err.nnRaised "boom") (by decide) h2 h3 h4

end MLIP
